import Mathlib

/-!
Shallow embedding of the core of `src/main.py` (nornir-ppcheck): the
command-resolution algorithm (`NornirCommands.get_cmds` / `organise_cmds`),
the command executor (`run_cmds`), persistence (`save_cmds` / `run_save_cmd`),
the diff subsystem (`create_diff` / `pos_create_diff`), the run-mode engine
(`NornirEngine.cmd_engine`), the validation-file merger
(`InputValidate._get_merge_val_files`, backed by deepmerge's `always_merger`),
and run-type selection (`InputValidate.get_run_type`).

External collaborators (netmiko sessions, the filesystem, timestamps) are
passed in explicitly: a device session is a function from command string to
output string, the current minute-granularity timestamp is a `date` argument,
and the contents of the output directory are a list of file names.  File
writes are returned as explicit `Write` values instead of performed.
-/

/-- Python's `str.lower()` restricted to the character-by-character case fold
used for ASCII device names (`each_hst.lower()` in `organise_cmds`). -/
def pyLower (s : String) : String := String.mk (s.data.map Char.toLower)

/-- A leaf of the command specification: the recognised keys of an entry under
`all`, `groups.<name>` or `hosts.<name>` in the input YAML.  Absent keys
default to `False` / `[]`, mirroring `input_data.get(key, default)`. -/
structure Leaf where
  run_cfg : Bool := false
  cmd_print : List String := []
  cmd_vital : List String := []
  cmd_detail : List String := []
deriving DecidableEq, Repr

/-- The layered command specification (`input_data` in the source): an
optional `all` section plus `groups` / `hosts` mappings.  Python dicts keep
insertion order, so the mappings are association lists in declaration order;
an absent section (`input_data.get(section) is None`) is `none` / `[]`. -/
structure InputData where
  all : Option Leaf := none
  groups : List (String × Leaf) := []
  hosts : List (String × Leaf) := []
deriving DecidableEq, Repr

/-- The identity of the device a task runs against: `str(task.host)` (display
name), `task.host.hostname` and the group names of `task.host.groups`. -/
structure Host where
  name : String
  hostname : String
  groups : List String
deriving DecidableEq, Repr

/-- The mutable `cmds` dictionary threaded through `get_cmds`.  In the source
`run_cfg` starts as `False` and accumulates with `+` (Python bool/int
addition), so it is a natural number here, with truthiness `run_cfg != 0`. -/
structure CmdsAcc where
  print : List String
  vital : List String
  detail : List String
  run_cfg : Nat
deriving DecidableEq, Repr

/-- `NornirCommands.get_cmds`: folds one leaf into the accumulator
(`extend` on the three lists, `+` on `run_cfg`). -/
def get_cmds (cmds : CmdsAcc) (input_data : Leaf) : CmdsAcc where
  run_cfg := cmds.run_cfg + input_data.run_cfg.toNat
  print := cmds.print ++ input_data.cmd_print
  vital := cmds.vital ++ input_data.cmd_vital
  detail := cmds.detail ++ input_data.cmd_detail

/-- The dictionary returned by `organise_cmds`.  After the final step the
`run_cfg` slot holds either the sentinel command list
`["show running-config"]` or its untouched falsy value, modelled as `[]`
(the source leaves the int `0` / `False` there; every later use is a
truthiness test or a command list). -/
structure OrgCmds where
  print : List String
  vital : List String
  detail : List String
  run_cfg : List String
deriving DecidableEq, Repr

/-- `NornirCommands.organise_cmds`: resolve the layered spec for one device.
Layers are folded in source order: `all`, then each declared group whose name
is in `task.host.groups`, then each declared host key that case-insensitively
equals the display name or the hostname.  Finally a truthy `run_cfg`
accumulator is replaced by `["show running-config"]`. -/
def organise_cmds (host : Host) (input_data : InputData) : OrgCmds :=
  let cmds : CmdsAcc := { print := [], vital := [], detail := [], run_cfg := 0 }
  let cmds := match input_data.all with
    | some leaf => get_cmds cmds leaf
    | none => cmds
  let cmds := input_data.groups.foldl
    (fun acc each_grp =>
      if host.groups.contains each_grp.1 then get_cmds acc each_grp.2 else acc) cmds
  let cmds := input_data.hosts.foldl
    (fun acc each_hst =>
      if pyLower each_hst.1 == pyLower host.name
          || pyLower each_hst.1 == pyLower host.hostname
      then get_cmds acc each_hst.2 else acc) cmds
  { print := cmds.print, vital := cmds.vital, detail := cmds.detail,
    run_cfg := if cmds.run_cfg ≠ 0 then ["show running-config"] else [] }

/-- All leaves of the spec that contribute to a given device, in resolution
order (`all`, matching groups, matching hosts). -/
def contributingLeaves (host : Host) (input_data : InputData) : List Leaf :=
  input_data.all.toList
    ++ (input_data.groups.filter
          (fun each_grp => host.groups.contains each_grp.1)).map Prod.snd
    ++ (input_data.hosts.filter
          (fun each_hst => pyLower each_hst.1 == pyLower host.name
            || pyLower each_hst.1 == pyLower host.hostname)).map Prod.snd

/-- Python's `logging.DEBUG` constant (severity level passed to save runs). -/
def logging_DEBUG : Nat := 10

/-- Python's `logging.INFO` constant (severity level passed to print runs). -/
def logging_INFO : Nat := 20

/-- Python's `"=" * n` padding string. -/
def eqPad (n : Nat) : String := String.mk (List.replicate n '=')

/-- The banner built for one command in `run_cmds`, without the trailing
newline: `"==== " + each_cmd + " " + "=" * (79 - len(each_cmd))`.  Python's
negative string-repeat count gives the empty string, matching truncated `Nat`
subtraction. -/
def cmd_banner_line (each_cmd : String) : String :=
  "==== " ++ each_cmd ++ " " ++ eqPad (79 - each_cmd.length)

/-- `NornirCommands.run_cmds`: execute each command of the list sequentially
against the device session and concatenate banner, raw output and three
newlines (the output line terminator plus two blank lines) per command.
The session argument stands for
`task.run(task=netmiko_send_command, command_string=each_cmd).result`; the
severity level is forwarded to nornir and does not affect the returned text. -/
def run_cmds (session : String → String) (cmd : List String) (sev_level : Nat) : String :=
  let _ := sev_level
  cmd.foldl
    (fun all_output each_cmd =>
      all_output ++ (cmd_banner_line each_cmd ++ "\n") ++ session each_cmd ++ "\n\n\n") ""

/-- A file produced by the program: a saved command-output snapshot
(`write_file` in `save_cmds`, with its full content), or an HTML diff artifact
(`create_diff`, whose content is produced by the external `difflib` collaborator
and is identified here by its two input files). -/
inductive Write where
  | cmdFile (path content : String)
  | diffFile (path pre post : String)
deriving DecidableEq, Repr

/-- `NornirCommands.save_cmds`: builds
`<output_fldr>/<host>_<run_type>_<date>.txt` and writes the output there,
returning the path.  The timestamp `date` is `datetime.now().strftime`
passed in explicitly. -/
def save_cmds (host : Host) (run_type : String) (output_fldr date : String)
    (output : String) : String × Write :=
  let file_name := host.name ++ "_" ++ run_type ++ "_" ++ date ++ ".txt"
  let output_file := output_fldr ++ "/" ++ file_name
  (output_file, Write.cmdFile output_file output)

/-- `NornirCommands.run_print_cmd`: runs the commands at `logging.INFO` for
display only; returns the displayed blob (the source discards it). -/
def run_print_cmd (session : String → String) (cmds : List String) : Option String :=
  if cmds.length ≠ 0 then some (run_cmds session cmds logging_INFO) else none

/-- `NornirCommands.run_save_cmd`: for a non-empty command list, run the
commands, save the blob and report the created file; otherwise return the
literal `"empty"` sentinel and write nothing. -/
def run_save_cmd (session : String → String) (host : Host)
    (run_type : String) (output_fldr date : String) (cmds : List String) :
    String × List Write :=
  if cmds.length ≠ 0 then
    let output := run_cmds session cmds logging_DEBUG
    let saved := save_cmds host run_type output_fldr date output
    ("✅ Created command output file \x27" ++ saved.1 ++ "\x27", [saved.2])
  else ("empty", [])

/-- Prefix test on character lists (used for Python `str.startswith` and the
trailing-star glob pattern). -/
def charsStartWith : List Char → List Char → Bool
  | _, [] => true
  | [], _ :: _ => false
  | c :: cs, p :: ps => c == p && charsStartWith cs ps

/-- Python `s.startswith(pat)` (equivalently, matching the glob `pat*`). -/
def pyStartsWith (s pat : String) : Bool := charsStartWith s.data pat.data

/-- The text before the first occurrence of the non-empty separator `sep`:
Python `s.split(sep)[0]`. -/
def beforeFirst (sep : List Char) : List Char → List Char
  | [] => []
  | c :: cs => if charsStartWith (c :: cs) sep then [] else c :: beforeFirst sep cs

/-- Python `s.split(sep)[0]` for a non-empty separator. -/
def pySplitHead (s sep : String) : String := String.mk (beforeFirst sep.data s.data)

/-- Python `s.replace("\\", "/").split("/")[-1]`: the basename of a path,
i.e. the suffix after the last slash once backslashes are normalised. -/
def pyBasename (s : String) : String :=
  String.mk (((s.data.map fun c => if c == '\\' then '/' else c).reverse.takeWhile
      (fun c => c != '/')).reverse)

/-- The `data` dictionary handed to `create_diff`: the output folder and the
two files to compare (`cmp_file1` is "pre", `cmp_file2` is "post"). -/
structure DiffData where
  output_fldr : String
  cmp_file1 : String
  cmp_file2 : String
deriving DecidableEq, Repr

/-- The output path computed by `NornirCommands.create_diff`: the pre file's
basename up to the first occurrence of the category token, followed by
`diff_<file_type>_<date>.html`, inside the output folder. -/
def diff_output_file (file_type date : String) (data : DiffData) : String :=
  let pre_file_name := pyBasename data.cmp_file1
  let tmp_name :=
    pySplitHead pre_file_name file_type ++ "diff_" ++ file_type ++ "_" ++ date ++ ".html"
  data.output_fldr ++ "/" ++ tmp_name

/-- `NornirCommands.create_diff`: reads the two input files, builds the HTML
table diff via the external `difflib.HtmlDiff` collaborator (shrinking the
rendered font), writes it to the computed path and reports it.  The artifact
is recorded as a `Write.diffFile` naming its path and its pre/post inputs. -/
def create_diff (file_type date : String) (data : DiffData) : String × Write :=
  let output_file := diff_output_file file_type date data
  ("✅ Created compare HTML file \x27" ++ output_file ++ "\x27",
   Write.diffFile output_file data.cmp_file1 data.cmp_file2)

/-- Python string comparison on lists of characters: lexicographic by code
point, shorter prefix first (how `list.sort` orders the snapshot paths). -/
def pyCharListLe : List Char → List Char → Bool
  | [], _ => true
  | _ :: _, [] => false
  | a :: as, b :: bs =>
      if a.toNat < b.toNat then true
      else if b.toNat < a.toNat then false
      else pyCharListLe as bs

/-- Python `str` comparison `a <= b` (code-point lexicographic). -/
def pyStrLe (a b : String) : Bool := pyCharListLe a.data b.data

/-- Python's `files.sort(reverse=True)`: the descending code-point-ordered
permutation of the list (a stable sort of strings is determined by order and
multiset alone, so insertion sort is an exact model). -/
def sortReverse (files : List String) : List String :=
  List.insertionSort (fun a b => pyStrLe b a = true) files

/-- The sorted glob matches used by `pos_create_diff`:
`glob.glob(os.path.join(output_fldr, hostname + "_" + file_type + "*"))`
followed by `files.sort(reverse=True)`.  The directory contents are passed as
the list of file names `dirFiles`; the glob keeps those starting with
`<hostname>_<file_type>` and yields full paths. -/
def pos_diff_files (host : Host) (file_type output_fldr : String)
    (dirFiles : List String) : List String :=
  sortReverse
    ((dirFiles.filter (fun f => pyStartsWith f (host.name ++ "_" ++ file_type))).map
      (fun f => output_fldr ++ "/" ++ f))

/-- `NornirCommands.pos_create_diff`: auto-diff the two newest snapshots of a
category.  With at least two matches, index 1 (second newest) becomes
`cmp_file1` (pre) and index 0 (newest) `cmp_file2` (post) and `create_diff`
runs; with fewer it returns the failure line naming the match count and the
glob pattern, writing nothing (and, being a total function, never raising). -/
def pos_create_diff (host : Host) (file_type output_fldr date : String)
    (dirFiles : List String) : String × List Write :=
  let file_filter := output_fldr ++ "/" ++ (host.name ++ "_" ++ file_type ++ "*")
  let files := pos_diff_files host file_type output_fldr dirFiles
  match files with
  | newest :: second :: _ =>
      let r := create_diff file_type date
        { output_fldr := output_fldr, cmp_file1 := second, cmp_file2 := newest }
      (r.1, [r.2])
  | files0 =>
      ("❌ Only " ++ toString files0.length ++ " file matched the filter \x27"
        ++ file_filter ++ "\x27 for files to be compared", [])

/-- The run types dispatched by `cmd_engine` (after `task_engine` strips the
`_save` suffix from `vital_save` / `detail_save`). -/
inductive RunType where
  | print
  | vital
  | detail
  | compare
  | pre_test
  | post_test
deriving DecidableEq, Repr

/-- The `data` dictionary handed to `cmd_engine`.  Per run type the source
builds it with `compare_arg` (compare: `output_fldr`, `cmp_file1`,
`cmp_file2`) or `noncompare_arg` (everything else: `output_fldr`,
`input_file`, `input_data`); `data.get("input_data", {})` makes a missing
`input_data` the empty spec and both builders always supply a real
`output_fldr` path, so the engine's `data["output_fldr"] is not None` check is
vacuously true.  `dirFiles` is the external state of the output folder
(file names), consulted by the `post_test` globs. -/
structure EngineData where
  input_data : InputData := {}
  output_fldr : String := ""
  cmp_file1 : String := ""
  cmp_file2 : String := ""
  dirFiles : List String := []

/-- Python's `list.remove(a)` under `contextlib.suppress(ValueError)`: drop
the first occurrence of `a`, if any. -/
def removeFirst (l : List String) (a : String) : List String :=
  match l with
  | [] => []
  | x :: xs => if x = a then xs else x :: removeFirst xs a

/-- The name a `Write` creates inside the output folder (its basename),
used to keep the modelled folder listing in sync for later globs. -/
def writeBase : Write → String
  | Write.cmdFile path _ => pyBasename path
  | Write.diffFile path _ _ => pyBasename path

/-- `NornirEngine.cmd_engine`: organise the commands, run the shared
`run_cfg` preamble, dispatch on the run type, append the empty-category
warning for `pre_test` / `post_test`, drop one `"empty"` sentinel and join the
report.  Returns the per-device report (`None` when the result list stayed
empty, which the caller renders as "Nothing run") together with every file
written.  For `post_test` the folder listing seen by each glob includes the
files written earlier in the same run. -/
def cmd_engine (session : String → String) (host : Host) (data : EngineData)
    (date : String) (run_type : RunType) : Option String × List Write :=
  let cmds := organise_cmds host data.input_data
  let step0 : List String × List Write :=
    if cmds.run_cfg ≠ [] then
      let r := run_save_cmd session host "config" data.output_fldr date cmds.run_cfg
      ([r.1], r.2)
    else ([], [])
  let result := step0.1
  let writes := step0.2
  let step1 : List String × List Write :=
    match run_type with
    | RunType.print =>
        let _ := run_print_cmd session cmds.print
        (result, writes)
    | RunType.vital =>
        let r := run_save_cmd session host "vital" data.output_fldr date cmds.vital
        (result ++ [r.1], writes ++ r.2)
    | RunType.detail =>
        let r := run_save_cmd session host "detail" data.output_fldr date cmds.detail
        (result ++ [r.1], writes ++ r.2)
    | RunType.compare =>
        let r := create_diff "compare" date
          { output_fldr := data.output_fldr, cmp_file1 := data.cmp_file1,
            cmp_file2 := data.cmp_file2 }
        (result ++ [r.1], writes ++ [r.2])
    | RunType.pre_test =>
        let _ := run_print_cmd session cmds.print
        let r1 := run_save_cmd session host "vital" data.output_fldr date cmds.vital
        let r2 := run_save_cmd session host "detail" data.output_fldr date cmds.detail
        (result ++ [r1.1, r2.1], writes ++ r1.2 ++ r2.2)
    | RunType.post_test =>
        let _ := run_print_cmd session cmds.print
        let r1 := run_save_cmd session host "vital" data.output_fldr date cmds.vital
        let fs1 := data.dirFiles ++ (writes ++ r1.2).map writeBase
        let r2 := pos_create_diff host "vital" data.output_fldr date fs1
        if cmds.run_cfg ≠ [] then
          let fs2 := fs1 ++ r2.2.map writeBase
          let r3 := pos_create_diff host "config" data.output_fldr date fs2
          (result ++ [r1.1, r2.1, r3.1], writes ++ r1.2 ++ r2.2 ++ r3.2)
        else
          (result ++ [r1.1, r2.1], writes ++ r1.2 ++ r2.2)
  let result := step1.1
  let writes := step1.2
  let empty_result :=
    (if cmds.print.length = 0 then ["print"] else [])
      ++ (if cmds.vital.length = 0 then ["vital"] else [])
      ++ (if cmds.detail.length = 0 then ["detail"] else [])
      ++ (if cmds.run_cfg = [] then ["config"] else [])
  let result :=
    if empty_result.length ≠ 0
        ∧ (run_type = RunType.pre_test ∨ run_type = RunType.post_test) then
      result ++ ["⚠️  There were no commands to run for: "
        ++ String.intercalate ", " empty_result]
    else result
  if result.length ≠ 0 then
    (some (String.intercalate "\n" (removeFirst result "empty")), writes)
  else (none, writes)

/-- A parsed YAML value as the merger sees it: a scalar (strings stand in for
every atomic value), a sequence, or a mapping as an association list in
document order. -/
inductive Yaml where
  | str (s : String)
  | seq (items : List Yaml)
  | map (entries : List (String × Yaml))
deriving Repr

mutual

/-- Recursive structural merge of deepmerge's `always_merger`: mappings merge
key by key (an existing key merges recursively in place, a new key is
appended), sequences concatenate, and in every other case the later value
overwrites the earlier one. -/
def mergeYaml : Yaml → Yaml → Yaml
  | Yaml.map base, Yaml.map nxt => Yaml.map (mergeEntries base nxt)
  | Yaml.seq base, Yaml.seq nxt => Yaml.seq (base ++ nxt)
  | _, nxt => nxt
termination_by _ n => sizeOf n

def mergeEntries : List (String × Yaml) → List (String × Yaml) → List (String × Yaml)
  | base, [] => base
  | base, (k, v) :: rest =>
      mergeEntries
        (if base.any (fun e => e.1 == k)
         then base.map (fun e => if e.1 == k then (e.1, mergeYaml e.2 v) else e)
         else base ++ [(k, v)])
        rest
termination_by _ l => sizeOf l

end

/-- Lookup of a key in a YAML mapping (Python `d[k]` / `k in d`; the first
entry wins, and a parsed YAML mapping has unique keys anyway). -/
def lookupKey (k : String) : List (String × Yaml) → Option Yaml
  | [] => none
  | e :: rest => if e.1 == k then some e.2 else lookupKey k rest

/-- Value found by following a path of mapping keys into a YAML value. -/
def getPath : Yaml → List String → Option Yaml
  | y, [] => some y
  | Yaml.map es, k :: p =>
      match lookupKey k es with
      | some v => getPath v p
      | none => none
  | _, _ :: _ => none

mutual

/-- Well-formedness along a path: each mapping traversed by the path holds the
path's key at most once (always true of parsed YAML). -/
def keysUniqAlong : Yaml → List String → Bool
  | _, [] => true
  | Yaml.map es, k :: p =>
      decide ((es.map Prod.fst).count k ≤ 1) && entriesUniqAlong es k p
  | _, _ :: _ => true
termination_by y _ => sizeOf y

def entriesUniqAlong : List (String × Yaml) → String → List String → Bool
  | [], _, _ => true
  | (k1, v) :: rest, k, p =>
      if k1 == k then keysUniqAlong v p else entriesUniqAlong rest k p
termination_by es _ _ => sizeOf es

end

/-- One validation document as `_get_merge_val_files` reads it from a `.yml`
file, already past `_val_input_file`: the three recognised top-level sections,
each present or absent. -/
structure ValDoc where
  all : Option Yaml := none
  groups : Option (List (String × Yaml)) := none
  hosts : Option (List (String × Yaml)) := none

/-- The accumulated `input_data = {"all": {}, "groups": {}, "hosts": {}}`
dictionary of `_get_merge_val_files`. -/
structure MergedVal where
  all : Yaml
  groups : List (String × Yaml)
  hosts : List (String × Yaml)

/-- Insert-or-merge of one named section entry
(`if sec_name not in input_data[section]: ... else: always_merger.merge`). -/
def mergeSection (cur : List (String × Yaml)) (feat : String × Yaml) :
    List (String × Yaml) :=
  if cur.any (fun e => e.1 == feat.1)
  then cur.map (fun e => if e.1 == feat.1 then (e.1, mergeYaml e.2 feat.2) else e)
  else cur ++ [feat]

/-- The merging loop of `InputValidate._get_merge_val_files` over already
loaded and validated documents: the `all` sections merge directly via
`always_merger`, the `hosts` / `groups` sections merge per named entry.  The
surrounding no-files / bad-format / all-empty guards `sys.exit` before any
result is produced and so sit outside this model of the returned value. -/
def get_merge_val_files (docs : List ValDoc) : MergedVal :=
  docs.foldl
    (fun input_data tmp_data =>
      let allv := match tmp_data.all with
        | some a => mergeYaml input_data.all a
        | none => input_data.all
      let hostsv := match tmp_data.hosts with
        | some hs => hs.foldl mergeSection input_data.hosts
        | none => input_data.hosts
      let groupsv := match tmp_data.groups with
        | some gs => gs.foldl mergeSection input_data.groups
        | none => input_data.groups
      { all := allv, groups := groupsv, hosts := hostsv })
    { all := Yaml.map [], groups := [], hosts := [] }

/-- The `wanted_args` list of `InputValidate.get_run_type`. -/
def wanted_args : List String :=
  ["print", "vital_save", "detail_save", "compare", "validate", "gen_val_file",
   "pre_test", "post_test"]

/-- The order in which `add_arg_parser` registers its own arguments, which is
the iteration order of their entries in `vars(args.parse_args())` (argparse
sets every default in registration order). -/
def add_arg_parser_keys : List String :=
  ["username", "print", "vital_save", "detail_save", "compare", "pre_test",
   "post_test", "gen_val_file", "validate"]

/-- The parsed argument dictionary reaching `get_run_type`: the inventory
arguments added by the external `nornir_inv.BuildInventory.add_arg_parser`
(names `inv_keys`, registered first), then this script's own arguments; each
maps to the supplied value (`nargs` makes it a list of strings) or `None`. -/
def parsed_args (inv_keys : List String) (supplied : String → Option (List String)) :
    List (String × Option (List String)) :=
  (inv_keys ++ add_arg_parser_keys).map (fun k => (k, supplied k))

/-- The loop body of `get_run_type`: a supplied flag overwrites the pair. -/
def run_type_step (acc : Option String × List String)
    (kv : String × Option (List String)) : Option String × List String :=
  match kv.2 with
  | some v => (some kv.1, v)
  | none => acc

/-- `InputValidate.get_run_type`: keep only the `wanted_args` entries of the
argument dictionary (in dictionary order) and let the last supplied one win,
starting from `(None, [])`. -/
def get_run_type (args : List (String × Option (List String))) :
    Option String × List String :=
  let tmp_args := args.filter (fun kv => wanted_args.contains kv.1)
  tmp_args.foldl run_type_step (none, [])

/-- The run-type flags in the order `get_run_type` actually iterates them:
registration order, not `wanted_args` order. -/
def run_type_iter_order : List String :=
  ["print", "vital_save", "detail_save", "compare", "pre_test", "post_test",
   "gen_val_file", "validate"]

/-! Helper lemmas about the resolution fold. -/

lemma foldl_get_cmds (ls : List Leaf) (acc : CmdsAcc) :
    ls.foldl get_cmds acc =
      { print := acc.print ++ ls.flatMap Leaf.cmd_print,
        vital := acc.vital ++ ls.flatMap Leaf.cmd_vital,
        detail := acc.detail ++ ls.flatMap Leaf.cmd_detail,
        run_cfg := acc.run_cfg + (ls.map (fun l => l.run_cfg.toNat)).sum } := by
  induction ls generalizing acc with
  | nil => simp
  | cons l t ih =>
      simp [List.foldl_cons, ih, get_cmds, List.append_assoc, Nat.add_assoc]

lemma foldl_guard {α : Type} (p : α → Bool) (sel : α → Leaf) (l : List α) (acc : CmdsAcc) :
    l.foldl (fun a x => if p x then get_cmds a (sel x) else a) acc
      = ((l.filter p).map sel).foldl get_cmds acc := by
  induction l generalizing acc with
  | nil => rfl
  | cons x t ih =>
      by_cases h : p x <;> simp [List.filter_cons, h, ih]

lemma organise_cmds_eq (host : Host) (input_data : InputData) :
    organise_cmds host input_data =
      { print := (contributingLeaves host input_data).flatMap Leaf.cmd_print,
        vital := (contributingLeaves host input_data).flatMap Leaf.cmd_vital,
        detail := (contributingLeaves host input_data).flatMap Leaf.cmd_detail,
        run_cfg :=
          if ((contributingLeaves host input_data).map (fun l => l.run_cfg.toNat)).sum ≠ 0
          then ["show running-config"] else [] } := by
  unfold organise_cmds contributingLeaves
  dsimp only
  rw [foldl_guard, foldl_guard]
  cases h : input_data.all with
  | none =>
      simp [h, foldl_get_cmds]
  | some leaf =>
      simp [h, foldl_get_cmds, get_cmds, List.append_assoc, Nat.add_assoc]

lemma sum_run_cfg_ne_zero_iff (L : List Leaf) :
    (L.map (fun l => l.run_cfg.toNat)).sum ≠ 0 ↔ ∃ leaf ∈ L, leaf.run_cfg = true := by
  induction L with
  | nil => simp
  | cons l t ih => cases hl : l.run_cfg <;> simp [hl, ih]

/-- C1: resolution appends command lists in the order `all` leaf first, then
every matching group leaf in declaration order, then every matching host leaf
in declaration order; in particular a spec with `all.cmd_print = ["a"]`,
`groups.X.cmd_print = ["b"]`, `hosts.R1.cmd_print = ["c"]` resolves to the
print list `["a", "b", "c"]` for a device named R1 in group X. -/
theorem c1_resolution_append_order :
    (∀ (host : Host) (spec : InputData),
      (organise_cmds host spec).print
          = spec.all.elim [] Leaf.cmd_print
            ++ ((spec.groups.filter (fun g => host.groups.contains g.1)).map
                  Prod.snd).flatMap Leaf.cmd_print
            ++ ((spec.hosts.filter (fun e => pyLower e.1 == pyLower host.name
                  || pyLower e.1 == pyLower host.hostname)).map Prod.snd).flatMap
                Leaf.cmd_print
        ∧ (organise_cmds host spec).vital
          = spec.all.elim [] Leaf.cmd_vital
            ++ ((spec.groups.filter (fun g => host.groups.contains g.1)).map
                  Prod.snd).flatMap Leaf.cmd_vital
            ++ ((spec.hosts.filter (fun e => pyLower e.1 == pyLower host.name
                  || pyLower e.1 == pyLower host.hostname)).map Prod.snd).flatMap
                Leaf.cmd_vital
        ∧ (organise_cmds host spec).detail
          = spec.all.elim [] Leaf.cmd_detail
            ++ ((spec.groups.filter (fun g => host.groups.contains g.1)).map
                  Prod.snd).flatMap Leaf.cmd_detail
            ++ ((spec.hosts.filter (fun e => pyLower e.1 == pyLower host.name
                  || pyLower e.1 == pyLower host.hostname)).map Prod.snd).flatMap
                Leaf.cmd_detail)
    ∧ (organise_cmds { name := "R1", hostname := "10.10.10.1", groups := ["X"] }
        { all := some { cmd_print := ["a"] },
          groups := [("X", { cmd_print := ["b"] })],
          hosts := [("R1", { cmd_print := ["c"] })] }).print = ["a", "b", "c"] := by
  constructor
  · intro host spec
    rw [organise_cmds_eq]
    refine ⟨?_, ?_, ?_⟩ <;>
      cases h : spec.all <;>
        simp [contributingLeaves, h, List.flatMap_append]
  · rfl

/-- C4: the resolved `run_cfg` is truthy exactly when at least one
contributing layer (the `all` leaf, a matching group leaf or a matching host
leaf) sets `run_cfg`; when truthy it is returned as the fixed one-command
`config` category `["show running-config"]`, while the `print` / `vital` /
`detail` categories are exactly the concatenated command lists of the
contributing leaves, so the config sentinel is never merged into them. -/
theorem c4_run_cfg_or_distinct_config :
    ∀ (host : Host) (spec : InputData),
      ((organise_cmds host spec).run_cfg ≠ []
          ↔ ∃ leaf ∈ contributingLeaves host spec, leaf.run_cfg = true)
        ∧ ((organise_cmds host spec).run_cfg ≠ []
            → (organise_cmds host spec).run_cfg = ["show running-config"])
        ∧ (organise_cmds host spec).print
            = (contributingLeaves host spec).flatMap Leaf.cmd_print
        ∧ (organise_cmds host spec).vital
            = (contributingLeaves host spec).flatMap Leaf.cmd_vital
        ∧ (organise_cmds host spec).detail
            = (contributingLeaves host spec).flatMap Leaf.cmd_detail := by
  intro host spec
  rw [organise_cmds_eq]
  refine ⟨?_, ?_, rfl, rfl, rfl⟩
  · rw [← sum_run_cfg_ne_zero_iff]
    by_cases hs :
        ((contributingLeaves host spec).map (fun l => l.run_cfg.toNat)).sum ≠ 0 <;>
      simp [hs]
  · intro hne
    by_cases hs :
        ((contributingLeaves host spec).map (fun l => l.run_cfg.toNat)).sum ≠ 0 <;>
      simp_all

/-- Witness for C4: a spec whose `all` leaf sets `run_cfg` resolves to the
distinct config category `["show running-config"]`. -/
theorem c4_run_cfg_or_distinct_config_witness :
    (organise_cmds { name := "R1", hostname := "10.0.0.1", groups := [] }
        { all := some { run_cfg := true } }).run_cfg = ["show running-config"] :=
  (c4_run_cfg_or_distinct_config
      { name := "R1", hostname := "10.0.0.1", groups := [] }
      { all := some { run_cfg := true } }).2.1 (by decide)

/-- C8: a host key of `spec.hosts` contributes its leaf to a device exactly
when it equals, case-insensitively, the device's display name or its
hostname; a match on either identifier alone suffices. -/
theorem c8_host_key_matching :
    ∀ (key : String) (leaf : Leaf) (host : Host),
      organise_cmds host { hosts := [(key, leaf)] }
        = if pyLower key = pyLower host.name ∨ pyLower key = pyLower host.hostname
          then { print := leaf.cmd_print, vital := leaf.cmd_vital,
                 detail := leaf.cmd_detail,
                 run_cfg := if leaf.run_cfg then ["show running-config"] else [] }
          else { print := [], vital := [], detail := [], run_cfg := [] } := by
  intro key leaf host
  rw [organise_cmds_eq]
  by_cases h : pyLower key = pyLower host.name ∨ pyLower key = pyLower host.hostname
  · have hb : (pyLower key == pyLower host.name
        || pyLower key == pyLower host.hostname) = true := by
      rcases h with h1 | h1 <;> simp [h1]
    simp only [contributingLeaves, if_pos h]
    cases hr : leaf.run_cfg <;>
      simp [List.filter_cons, hb, hr]
  · have hb : (pyLower key == pyLower host.name
        || pyLower key == pyLower host.hostname) = false := by
      simpa using h
    simp [contributingLeaves, if_neg h, List.filter_cons, hb]

lemma string_foldl_append (l : List String) (acc : String) :
    l.foldl (· ++ ·) acc = acc ++ l.foldl (· ++ ·) "" := by
  induction l generalizing acc with
  | nil => simp
  | cons x t ih =>
      simp only [List.foldl_cons]
      rw [ih (acc ++ x), ih ("" ++ x), String.empty_append, String.append_assoc]

lemma string_join_nil : String.join [] = "" := rfl

lemma string_join_cons (a : String) (l : List String) :
    String.join (a :: l) = a ++ String.join l := by
  show (a :: l).foldl (· ++ ·) "" = a ++ l.foldl (· ++ ·) ""
  rw [List.foldl_cons, string_foldl_append, String.empty_append]

lemma run_cmds_join (session : String → String) (cmd : List String) (sev_level : Nat) :
    run_cmds session cmd sev_level
      = String.join (cmd.map fun c => cmd_banner_line c ++ "\n" ++ session c ++ "\n\n\n") := by
  unfold run_cmds
  dsimp only
  suffices h : ∀ acc : String,
      cmd.foldl (fun all_output each_cmd =>
        all_output ++ (cmd_banner_line each_cmd ++ "\n") ++ session each_cmd ++ "\n\n\n") acc
        = acc ++ String.join (cmd.map fun c => cmd_banner_line c ++ "\n" ++ session c ++ "\n\n\n") by
    rw [h "", String.empty_append]
  induction cmd with
  | nil =>
      intro acc
      rw [List.foldl_nil, List.map_nil, string_join_nil, String.append_empty]
  | cons c t ih =>
      intro acc
      rw [List.foldl_cons, ih, List.map_cons, string_join_cons]
      simp only [String.append_assoc]

lemma cmd_banner_line_length (c : String) (h : c.length ≤ 79) :
    (cmd_banner_line c).length = 85 := by
  have hpad : (eqPad (79 - c.length)).length = 79 - c.length := by
    show (List.replicate (79 - c.length) '=').length = 79 - c.length
    exact List.length_replicate _ _
  simp only [cmd_banner_line, String.length_append, hpad]
  have h5 : ("==== " : String).length = 5 := rfl
  have h1 : (" " : String).length = 1 := rfl
  omega

/-- Counterexample to C3 as stated: the banner line that `run_cmds` emits for
the command `show arp` has width 85, not 80 (the padding count is
`79 - len(cmd)` on top of the 6 fixed characters around the command). -/
theorem c3_banner_width_counterexample :
    run_cmds (fun _ => "out") ["show arp"] logging_INFO
        = cmd_banner_line "show arp" ++ "\n" ++ "out" ++ "\n\n\n"
      ∧ (cmd_banner_line "show arp").length = 85
      ∧ (cmd_banner_line "show arp").length ≠ 80 := by
  refine ⟨?_, by decide, by decide⟩
  rw [run_cmds_join, List.map_cons, List.map_nil, string_join_cons, string_join_nil,
    String.append_empty]

/-- C3 (amended): each command's output in the blob is preceded by the banner
`"==== <command> "` padded with `=` to a total line width of exactly 85
characters (for commands of at most 79 characters), and followed by two blank
lines, blocks concatenated in command order. -/
theorem c3_banner_blocks_amended :
    ∀ (session : String → String) (cmds : List String) (sev_level : Nat),
      run_cmds session cmds sev_level
          = String.join (cmds.map fun c => cmd_banner_line c ++ "\n" ++ session c ++ "\n\n\n")
        ∧ ∀ c ∈ cmds, c.length ≤ 79 → (cmd_banner_line c).length = 85 := by
  intro session cmds sev_level
  exact ⟨run_cmds_join session cmds sev_level,
    fun c _ h => cmd_banner_line_length c h⟩

/-- Witness for the amended C3 at a concrete run. -/
theorem c3_banner_blocks_amended_witness :
    run_cmds (fun _ => "ip arp output") ["show arp"] logging_DEBUG
        = String.join (["show arp"].map
            fun c => cmd_banner_line c ++ "\n" ++ (fun _ => "ip arp output") c ++ "\n\n\n")
      ∧ ∀ c ∈ ["show arp"], c.length ≤ 79 → (cmd_banner_line c).length = 85 :=
  c3_banner_blocks_amended (fun _ => "ip arp output") ["show arp"] logging_DEBUG

lemma pyCharListLe_total : ∀ as bs : List Char,
    pyCharListLe as bs = true ∨ pyCharListLe bs as = true := by
  intro as
  induction as with
  | nil => intro bs; exact Or.inl rfl
  | cons a as ih =>
      intro bs
      match bs with
      | [] => exact Or.inr rfl
      | b :: bs =>
          simp only [pyCharListLe]
          split_ifs <;>
            first
            | exact Or.inl rfl
            | exact Or.inr rfl
            | omega
            | exact ih bs

lemma pyCharListLe_trans : ∀ as bs cs : List Char,
    pyCharListLe as bs = true → pyCharListLe bs cs = true →
      pyCharListLe as cs = true := by
  intro as
  induction as with
  | nil => intro bs cs h1 h2; rfl
  | cons a as ih =>
      intro bs cs h1 h2
      match bs, cs with
      | [], _ => simp [pyCharListLe] at h1
      | b :: bs, [] => simp [pyCharListLe] at h2
      | b :: bs, c :: cs =>
          simp only [pyCharListLe] at h1 h2 ⊢
          split_ifs at h1 h2 ⊢ <;>
            first
            | rfl
            | omega
            | exact ih bs cs h1 h2

lemma sortReverse_sorted (files : List String) :
    List.Sorted (fun a b => pyStrLe b a = true) (sortReverse files) :=
  @List.sorted_insertionSort String (fun a b => pyStrLe b a = true) _
    ⟨fun a b => (pyCharListLe_total b.data a.data).imp id id⟩
    ⟨fun a b c h1 h2 => pyCharListLe_trans c.data b.data a.data h2 h1⟩ files

/-- C5: auto-diff sorts the glob matches descending (code-point
lexicographically, hence chronologically for the fixed-width timestamps),
hands the second-newest to `create_diff` as `cmp_file1` (pre) and the newest
as `cmp_file2` (post); with exactly the snapshots
`R1_vital_20240101-0100.txt` and `R1_vital_20240101-0200.txt` the 0100 file
is pre and the 0200 file is post. -/
theorem c5_autodiff_newest_pair :
    (∀ (host : Host) (file_type output_fldr date : String) (dirFiles : List String)
        (newest second : String) (rest : List String),
      pos_diff_files host file_type output_fldr dirFiles = newest :: second :: rest →
      pos_create_diff host file_type output_fldr date dirFiles
        = ((create_diff file_type date
              { output_fldr := output_fldr, cmp_file1 := second, cmp_file2 := newest }).1,
           [Write.diffFile
              (diff_output_file file_type date
                { output_fldr := output_fldr, cmp_file1 := second, cmp_file2 := newest })
              second newest]))
    ∧ (∀ (host : Host) (file_type output_fldr : String) (dirFiles : List String),
        List.Sorted (fun a b => pyStrLe b a = true)
          (pos_diff_files host file_type output_fldr dirFiles))
    ∧ pos_create_diff { name := "R1", hostname := "r1", groups := [] } "vital" "out"
        "20240102-0100" ["R1_vital_20240101-0100.txt", "R1_vital_20240101-0200.txt"]
        = ("✅ Created compare HTML file \x27out/R1_diff_vital_20240102-0100.html\x27",
           [Write.diffFile "out/R1_diff_vital_20240102-0100.html"
              "out/R1_vital_20240101-0100.txt" "out/R1_vital_20240101-0200.txt"]) := by
  refine ⟨?_, ?_, by decide⟩
  · intro host file_type output_fldr date dirFiles newest second rest hfiles
    unfold pos_create_diff
    dsimp only
    rw [hfiles]
    rfl
  · intro host file_type output_fldr dirFiles
    exact sortReverse_sorted _

/-- Witness for C5 at a concrete input discharging the two-match hypothesis. -/
theorem c5_autodiff_newest_pair_witness :
    pos_create_diff { name := "SW1", hostname := "sw1", groups := [] } "config" "o"
        "20240103-0000" ["SW1_config_20240101-0001.txt", "SW1_config_20240101-0002.txt"]
      = ((create_diff "config" "20240103-0000"
            { output_fldr := "o", cmp_file1 := "o/SW1_config_20240101-0001.txt",
              cmp_file2 := "o/SW1_config_20240101-0002.txt" }).1,
         [Write.diffFile
            (diff_output_file "config" "20240103-0000"
              { output_fldr := "o", cmp_file1 := "o/SW1_config_20240101-0001.txt",
                cmp_file2 := "o/SW1_config_20240101-0002.txt" })
            "o/SW1_config_20240101-0001.txt" "o/SW1_config_20240101-0002.txt"]) :=
  c5_autodiff_newest_pair.1 { name := "SW1", hostname := "sw1", groups := [] }
    "config" "o" "20240103-0000"
    ["SW1_config_20240101-0001.txt", "SW1_config_20240101-0002.txt"]
    "o/SW1_config_20240101-0002.txt" "o/SW1_config_20240101-0001.txt" [] (by decide)

/-- C6: with zero or one matching snapshot, auto-diff returns the failure line
naming the match count and the glob pattern, performs no write, and (being a
total Lean function like the straight-line Python it models) never raises;
the caller simply appends this line to the device's report. -/
theorem c6_autodiff_insufficient_files :
    ∀ (host : Host) (file_type output_fldr date : String) (dirFiles : List String),
      (pos_diff_files host file_type output_fldr dirFiles).length < 2 →
      pos_create_diff host file_type output_fldr date dirFiles
        = ("❌ Only " ++ toString (pos_diff_files host file_type output_fldr dirFiles).length
            ++ " file matched the filter \x27" ++ output_fldr ++ "/"
            ++ (host.name ++ "_" ++ file_type ++ "*")
            ++ "\x27 for files to be compared", []) := by
  intro host file_type output_fldr date dirFiles hlen
  unfold pos_create_diff
  dsimp only
  match hfiles : pos_diff_files host file_type output_fldr dirFiles with
  | [] => simp only [String.append_assoc]
  | [f] => simp only [String.append_assoc]
  | f1 :: f2 :: fs => rw [hfiles] at hlen; simp at hlen; omega

/-- Witness for C6: a single matching snapshot yields the counted failure
line and no write. -/
theorem c6_autodiff_insufficient_files_witness :
    pos_create_diff { name := "R1", hostname := "r1", groups := [] } "vital" "out"
        "20240102-0100" ["R1_vital_20240101-0100.txt"]
      = ("❌ Only "
          ++ toString (pos_diff_files { name := "R1", hostname := "r1", groups := [] }
                "vital" "out" ["R1_vital_20240101-0100.txt"]).length
          ++ " file matched the filter \x27" ++ "out" ++ "/"
          ++ ("R1" ++ "_" ++ "vital" ++ "*")
          ++ "\x27 for files to be compared", []) :=
  c6_autodiff_insufficient_files { name := "R1", hostname := "r1", groups := [] }
    "vital" "out" "20240102-0100" ["R1_vital_20240101-0100.txt"] (by decide)

lemma ok_msg_ne_empty (s : String) :
    ("✅ Created command output file \x27" ++ s ++ "\x27") ≠ "empty" := by
  intro h
  have hlen := congrArg String.length h
  rw [String.length_append, String.length_append] at hlen
  have h1 : ("✅ Created command output file \x27" : String).length = 31 := rfl
  have h2 : ("\x27" : String).length = 1 := rfl
  have h3 : ("empty" : String).length = 5 := rfl
  rw [h1, h2, h3] at hlen
  omega

lemma run_save_cfg_ne_empty (session : String → String) (host : Host)
    (fldr date : String) :
    (run_save_cmd session host "config" fldr date ["show running-config"]).1
      ≠ "empty" := by
  unfold run_save_cmd
  rw [if_pos (by decide : (["show running-config"] : List String).length ≠ 0)]
  exact ok_msg_ne_empty _

lemma removeFirst_cons_of_ne (x a : String) (l : List String) (h : x ≠ a) :
    removeFirst (x :: l) a = x :: removeFirst l a := by
  simp [removeFirst, h]

lemma engine_tail_exists (cfg warn : String) (L : List String) (W0 W1 : List Write)
    (warnCond : Prop) [Decidable warnCond] (h : cfg ≠ "empty") :
    ∃ (rest : List String) (wrest : List Write),
      (if (if warnCond then (cfg :: L) ++ [warn] else cfg :: L).length ≠ 0 then
        (some (String.intercalate "\n"
          (removeFirst (if warnCond then (cfg :: L) ++ [warn] else cfg :: L) "empty")),
         W0 ++ W1)
      else (none, W0 ++ W1))
        = (some (String.intercalate "\n" (cfg :: rest)), W0 ++ wrest) := by
  by_cases hw : warnCond
  · refine ⟨removeFirst (L ++ [warn]) "empty", W1, ?_⟩
    rw [if_pos hw]
    have hcons : (cfg :: L) ++ [warn] = cfg :: (L ++ [warn]) := by simp
    rw [hcons, if_pos (by simp), removeFirst_cons_of_ne _ _ _ h]
  · refine ⟨removeFirst L "empty", W1, ?_⟩
    rw [if_neg hw, if_pos (by simp), removeFirst_cons_of_ne _ _ _ h]

lemma engine_tail_exists_noappend (cfg warn : String) (W0 : List Write)
    (warnCond : Prop) [Decidable warnCond] (h : cfg ≠ "empty") :
    ∃ (rest : List String) (wrest : List Write),
      (if (if warnCond then [cfg] ++ [warn] else [cfg]).length ≠ 0 then
        (some (String.intercalate "\n"
          (removeFirst (if warnCond then [cfg] ++ [warn] else [cfg]) "empty")), W0)
      else (none, W0))
        = (some (String.intercalate "\n" (cfg :: rest)), W0 ++ wrest) := by
  by_cases hw : warnCond
  · refine ⟨removeFirst [warn] "empty", [], ?_⟩
    rw [if_pos hw]
    have hcons : ([cfg] : List String) ++ [warn] = cfg :: [warn] := by simp
    rw [hcons, if_pos (by simp), removeFirst_cons_of_ne _ _ _ h, List.append_nil]
  · refine ⟨removeFirst [] "empty", [], ?_⟩
    rw [if_neg hw, if_pos (by simp), removeFirst_cons_of_ne _ _ _ h, List.append_nil]

lemma organise_run_cfg_sentinel (host : Host) (spec : InputData)
    (h : (organise_cmds host spec).run_cfg ≠ []) :
    (organise_cmds host spec).run_cfg = ["show running-config"] := by
  rw [organise_cmds_eq] at h ⊢
  by_cases hs :
      ((contributingLeaves host spec).map (fun l => l.run_cfg.toNat)).sum ≠ 0 <;>
    simp_all

/-- C7: for every run type except `compare`, when the resolved `run_cfg`
config command is present the engine executes and persists it under category
`config` first: the report is non-`None`, its first status line is the
config-save status, and the config snapshot write precedes every other
write. -/
theorem c7_run_cfg_preamble_recorded_first :
    ∀ (session : String → String) (host : Host) (data : EngineData) (date : String)
      (run_type : RunType),
      run_type ≠ RunType.compare →
      (organise_cmds host data.input_data).run_cfg ≠ [] →
      ∃ (rest : List String) (wrest : List Write),
        cmd_engine session host data date run_type
          = (some (String.intercalate "\n"
                ((run_save_cmd session host "config" data.output_fldr date
                    ["show running-config"]).1 :: rest)),
             (run_save_cmd session host "config" data.output_fldr date
                ["show running-config"]).2 ++ wrest) := by
  intro session host data date run_type hne hcfg
  have hsent := organise_run_cfg_sentinel host data.input_data hcfg
  have hnil : (["show running-config"] : List String) ≠ [] := by decide
  have hmsg := run_save_cfg_ne_empty session host data.output_fldr date
  cases run_type with
  | compare => exact absurd rfl hne
  | print =>
      unfold cmd_engine
      dsimp only
      rw [hsent, if_pos hnil]
      exact engine_tail_exists_noappend _ _ _ _ hmsg
  | vital =>
      unfold cmd_engine
      dsimp only
      rw [hsent, if_pos hnil]
      exact engine_tail_exists _ _ _ _ _ _ hmsg
  | detail =>
      unfold cmd_engine
      dsimp only
      rw [hsent, if_pos hnil]
      exact engine_tail_exists _ _ _ _ _ _ hmsg
  | pre_test =>
      unfold cmd_engine
      dsimp only
      rw [hsent, if_pos hnil]
      simp only [List.append_assoc]
      exact engine_tail_exists _ _ _ _ _ _ hmsg
  | post_test =>
      unfold cmd_engine
      dsimp only
      rw [hsent, if_pos hnil, if_pos hnil]
      simp only [List.append_assoc]
      exact engine_tail_exists _ _ _ _ _ _ hmsg

/-- Witness for C7: a `print` run with `all.run_cfg` set records the config
save status first. -/
theorem c7_run_cfg_preamble_recorded_first_witness :
    ∃ (rest : List String) (wrest : List Write),
      cmd_engine (fun _ => "cfg output") { name := "R1", hostname := "r1", groups := [] }
          { input_data := { all := some { run_cfg := true } }, output_fldr := "out",
            cmp_file1 := "", cmp_file2 := "", dirFiles := [] }
          "20240101-0100" RunType.print
        = (some (String.intercalate "\n"
              ((run_save_cmd (fun _ => "cfg output")
                  { name := "R1", hostname := "r1", groups := [] }
                  "config" "out" "20240101-0100" ["show running-config"]).1 :: rest)),
           (run_save_cmd (fun _ => "cfg output")
              { name := "R1", hostname := "r1", groups := [] }
              "config" "out" "20240101-0100" ["show running-config"]).2 ++ wrest) :=
  c7_run_cfg_preamble_recorded_first (fun _ => "cfg output")
    { name := "R1", hostname := "r1", groups := [] }
    { input_data := { all := some { run_cfg := true } }, output_fldr := "out",
      cmp_file1 := "", cmp_file2 := "", dirFiles := [] }
    "20240101-0100" RunType.print (by decide) (by decide)

/-- C2 (evaluation at the failing input): a `pre_test` run on a device with
zero resolved commands in every category writes no files, but its report is
the string `"empty\n⚠️  There were no commands to run for: print, vital,
detail, config"` rather than the warning line alone: `result.remove("empty")`
drops only the first of the two `"empty"` sentinels (vital and detail), so
one sentinel survives into the joined report, contradicting the spec and the
source's own comment that the dummy entries are removed. -/
theorem c2_pre_test_empty_sentinel_survives :
    cmd_engine (fun _ => "") { name := "R1", hostname := "r1", groups := [] }
        { input_data := {}, output_fldr := "out", cmp_file1 := "", cmp_file2 := "",
          dirFiles := [] }
        "20240101-0100" RunType.pre_test
      = (some ("empty\n⚠️  There were no commands to run for: print, vital, detail, config"),
         []) := by
  rfl

lemma lookupKey_update_ne (k k1 : String) (v : Yaml) (base : List (String × Yaml))
    (hne : k1 ≠ k) :
    lookupKey k (base.map (fun e => if e.1 == k1 then (e.1, mergeYaml e.2 v) else e))
      = lookupKey k base := by
  induction base with
  | nil => rfl
  | cons e rest ih =>
      by_cases h1 : e.1 == k1
      · have he : e.1 = k1 := by simpa using h1
        have h2 : (e.1 == k) = false := by simp [he, hne]
        simp [List.map_cons, lookupKey, h1, h2, ih, -beq_iff_eq]
      · by_cases h2 : e.1 == k <;>
          simp [List.map_cons, lookupKey, h1, h2, ih, -beq_iff_eq]

lemma lookupKey_append (k : String) (base l2 : List (String × Yaml)) (b : Yaml)
    (h : lookupKey k base = some b) :
    lookupKey k (base ++ l2) = some b := by
  induction base with
  | nil => simp [lookupKey] at h
  | cons e rest ih =>
      by_cases h1 : e.1 == k <;> simp_all [lookupKey]

lemma lookupKey_append_ne (k k1 : String) (v : Yaml) (base : List (String × Yaml))
    (h : k1 ≠ k) :
    lookupKey k (base ++ [(k1, v)]) = lookupKey k base := by
  induction base with
  | nil => simp [lookupKey, h]
  | cons e rest ih =>
      by_cases h1 : e.1 == k <;> simp [lookupKey, h1, ih]

lemma lookupKey_update_self (k : String) (v : Yaml) (base : List (String × Yaml))
    (b : Yaml) (h : lookupKey k base = some b) :
    lookupKey k (base.map (fun e => if e.1 == k then (e.1, mergeYaml e.2 v) else e))
      = some (mergeYaml b v) := by
  induction base with
  | nil => simp [lookupKey] at h
  | cons e rest ih =>
      by_cases h1 : e.1 == k
      · have hb : e.2 = b := by simpa [lookupKey, h1] using h
        simp [List.map_cons, lookupKey, h1, hb]
      · have h2 : lookupKey k rest = some b := by simpa [lookupKey, h1] using h
        simp [List.map_cons, lookupKey, h1, ih h2, -beq_iff_eq]

lemma any_of_lookupKey (k : String) (base : List (String × Yaml)) (b : Yaml)
    (h : lookupKey k base = some b) :
    base.any (fun e => e.1 == k) = true := by
  induction base with
  | nil => simp [lookupKey] at h
  | cons e rest ih =>
      by_cases h1 : e.1 == k
      · simp [List.any_cons, h1]
      · have h2 : lookupKey k rest = some b := by simpa [lookupKey, h1] using h
        simp [List.any_cons, ih h2]

lemma lookupKey_mergeEntries_of_not_mem (k : String)
    (nxt : List (String × Yaml)) (h : (nxt.map Prod.fst).count k = 0) :
    ∀ base : List (String × Yaml),
      lookupKey k (mergeEntries base nxt) = lookupKey k base := by
  induction nxt with
  | nil => intro base; simp only [mergeEntries]
  | cons e rest ih =>
      obtain ⟨k1, v⟩ := e
      intro base
      have hk1 : k1 ≠ k := by
        intro hk
        simp [List.map_cons, List.count_cons, hk] at h
      have hrest : (rest.map Prod.fst).count k = 0 := by
        simp [List.map_cons, List.count_cons] at h
        exact h.1
      simp only [mergeEntries]
      rw [ih hrest]
      by_cases hb : base.any (fun e => e.1 == k1)
      · rw [if_pos hb]
        exact lookupKey_update_ne k k1 v base hk1
      · rw [if_neg hb]
        exact lookupKey_append_ne k k1 v base hk1

lemma lookupKey_mergeEntries (k : String) (nxt : List (String × Yaml)) (v : Yaml)
    (hn : lookupKey k nxt = some v)
    (huniq : (nxt.map Prod.fst).count k ≤ 1) :
    ∀ (base : List (String × Yaml)) (b : Yaml), lookupKey k base = some b →
      lookupKey k (mergeEntries base nxt) = some (mergeYaml b v) := by
  induction nxt with
  | nil => simp [lookupKey] at hn
  | cons e rest ih =>
      obtain ⟨k1, w⟩ := e
      intro base b hb
      by_cases h1 : (k1 == k) = true
      · have hk : k1 = k := by simpa using h1
        subst hk
        have hv : w = v := by simpa [lookupKey] using hn
        subst hv
        have hrest0 : (rest.map Prod.fst).count k1 = 0 := by
          simp [List.map_cons, List.count_cons] at huniq
          omega
        simp only [mergeEntries]
        rw [if_pos (any_of_lookupKey k1 base b hb)]
        rw [lookupKey_mergeEntries_of_not_mem k1 rest hrest0]
        exact lookupKey_update_self k1 w base b hb
      · have hk1 : k1 ≠ k := by simpa using h1
        have hn2 : lookupKey k rest = some v := by simpa [lookupKey, h1] using hn
        have hcnt : (rest.map Prod.fst).count k ≤ 1 := by
          simp [List.map_cons, List.count_cons] at huniq
          omega
        simp only [mergeEntries]
        by_cases hbany : base.any (fun e => e.1 == k1)
        · rw [if_pos hbany]
          refine ih hn2 hcnt _ b ?_
          rw [lookupKey_update_ne k k1 w base hk1]
          exact hb
        · rw [if_neg hbany]
          exact ih hn2 hcnt _ b (lookupKey_append k base [(k1, w)] b hb)

lemma entriesUniqAlong_eq (k : String) (p : List String) :
    ∀ (es : List (String × Yaml)) (v : Yaml), lookupKey k es = some v →
      entriesUniqAlong es k p = keysUniqAlong v p := by
  intro es
  induction es with
  | nil => intro v h; simp [lookupKey] at h
  | cons e rest ih =>
      obtain ⟨k1, w⟩ := e
      intro v h
      by_cases h1 : (k1 == k) = true
      · have hv : w = v := by simpa [lookupKey, h1] using h
        subst hv
        simp only [entriesUniqAlong, if_pos h1]
      · have h2 : lookupKey k rest = some v := by simpa [lookupKey, h1] using h
        simp only [entriesUniqAlong, if_neg h1]
        exact ih v h2

lemma getPath_mergeYaml : ∀ (p : List String) (b n : Yaml) (xs ys : List Yaml),
    getPath b p = some (Yaml.seq xs) → getPath n p = some (Yaml.seq ys) →
    keysUniqAlong n p = true →
    getPath (mergeYaml b n) p = some (Yaml.seq (xs ++ ys)) := by
  intro p
  induction p with
  | nil =>
      intro b n xs ys hb hn _
      have hb2 : b = Yaml.seq xs := by simpa [getPath] using hb
      have hn2 : n = Yaml.seq ys := by simpa [getPath] using hn
      subst hb2; subst hn2
      simp [mergeYaml, getPath]
  | cons k p ih =>
      intro b n xs ys hb hn hu
      cases b with
      | str s => simp [getPath] at hb
      | seq l => simp [getPath] at hb
      | map eb =>
          cases n with
          | str s => simp [getPath] at hn
          | seq l => simp [getPath] at hn
          | map en =>
              cases hvb : lookupKey k eb with
              | none => simp [getPath, hvb] at hb
              | some vb =>
                  cases hvn : lookupKey k en with
                  | none => simp [getPath, hvn] at hn
                  | some vn =>
                      have hb2 : getPath vb p = some (Yaml.seq xs) := by
                        simpa [getPath, hvb] using hb
                      have hn2 : getPath vn p = some (Yaml.seq ys) := by
                        simpa [getPath, hvn] using hn
                      rw [keysUniqAlong, Bool.and_eq_true, decide_eq_true_eq,
                        entriesUniqAlong_eq k p en vn hvn] at hu
                      have hlk := lookupKey_mergeEntries k en vn hvn hu.1 eb vb hvb
                      have hmerge : mergeYaml (Yaml.map eb) (Yaml.map en)
                          = Yaml.map (mergeEntries eb en) := by
                        simp [mergeYaml]
                      rw [hmerge]
                      simp only [getPath, hlk]
                      exact ih _ _ _ _ hb2 hn2 hu.2

/-- C9: the recursive structural merge concatenates, in document order, the
two sequences found under the same nested key of two documents (for any key
path along which the later document, like any parsed YAML mapping, holds each
key once); in particular merging the documents with
`all.cmd_print = ["a"]` and `all.cmd_print = ["b"]` through
`get_merge_val_files` yields `all.cmd_print = ["a", "b"]`. -/
theorem c9_merge_concatenates_sequences :
    (∀ (b n : Yaml) (p : List String) (xs ys : List Yaml),
      getPath b p = some (Yaml.seq xs) → getPath n p = some (Yaml.seq ys) →
      keysUniqAlong n p = true →
      getPath (mergeYaml b n) p = some (Yaml.seq (xs ++ ys)))
    ∧ (get_merge_val_files
        [{ all := some (Yaml.map [("cmd_print", Yaml.seq [Yaml.str "a"])]) },
         { all := some (Yaml.map [("cmd_print", Yaml.seq [Yaml.str "b"])]) }]).all
      = Yaml.map [("cmd_print", Yaml.seq [Yaml.str "a", Yaml.str "b"])] := by
  refine ⟨fun b n p xs ys hb hn hu => getPath_mergeYaml p b n xs ys hb hn hu, ?_⟩
  simp [get_merge_val_files, mergeYaml, mergeEntries]

/-- Witness for C9: the general merge statement applied to the two concrete
`all` sections, discharging the path and uniqueness hypotheses. -/
theorem c9_merge_concatenates_sequences_witness :
    getPath
        (mergeYaml (Yaml.map [("cmd_print", Yaml.seq [Yaml.str "a"])])
          (Yaml.map [("cmd_print", Yaml.seq [Yaml.str "b"])]))
        ["cmd_print"]
      = some (Yaml.seq [Yaml.str "a", Yaml.str "b"]) :=
  c9_merge_concatenates_sequences.1
    (Yaml.map [("cmd_print", Yaml.seq [Yaml.str "a"])])
    (Yaml.map [("cmd_print", Yaml.seq [Yaml.str "b"])])
    ["cmd_print"] [Yaml.str "a"] [Yaml.str "b"]
    (by simp [getPath, lookupKey])
    (by simp [getPath, lookupKey])
    (by simp [keysUniqAlong, entriesUniqAlong, lookupKey])

lemma getLast?_cons_ne_nil {α : Type} (a : α) (l : List α) (h : l ≠ []) :
    (a :: l).getLast? = l.getLast? := by
  cases l with
  | nil => exact absurd rfl h
  | cons b t => exact List.getLast?_cons_cons

lemma get_run_type_foldl (l : List (String × Option (List String))) :
    ∀ acc : Option String × List String,
      l.foldl run_type_step acc
        = (l.filter (fun kv => kv.2.isSome)).getLast?.elim acc
            (fun kv => (some kv.1, kv.2.getD [])) := by
  induction l with
  | nil => intro acc; rfl
  | cons kv rest ih =>
      obtain ⟨k, v⟩ := kv
      intro acc
      cases v with
      | none =>
          rw [List.foldl_cons, ih]
          simp [run_type_step, List.filter_cons]
      | some xs =>
          rw [List.foldl_cons, ih]
          by_cases hrest : rest.filter (fun kv => kv.2.isSome) = []
          · simp [run_type_step, List.filter_cons, hrest, List.getLast?]
          · have hcons :
                ((k, some xs) :: rest.filter (fun kv => kv.2.isSome)).getLast?
                  = (rest.filter (fun kv => kv.2.isSome)).getLast? :=
              getLast?_cons_ne_nil _ _ hrest
            simp only [List.filter_cons, Option.isSome_some, if_true]
            rw [hcons]
            cases hl : (rest.filter (fun kv => kv.2.isSome)).getLast? with
            | none => exact absurd (List.getLast?_eq_none_iff.mp hl) hrest
            | some last => rfl

lemma parsed_args_filter (inv_keys : List String)
    (supplied : String → Option (List String))
    (hinv : ∀ k ∈ inv_keys, wanted_args.contains k = false) :
    (parsed_args inv_keys supplied).filter (fun kv => wanted_args.contains kv.1)
      = run_type_iter_order.map (fun k => (k, supplied k)) := by
  unfold parsed_args
  rw [List.map_append, List.filter_append]
  have h1 : (inv_keys.map (fun k => (k, supplied k))).filter
      (fun kv => wanted_args.contains kv.1) = [] := by
    rw [List.filter_eq_nil_iff]
    intro kv hkv
    obtain ⟨k, hk, hkv2⟩ := List.mem_map.mp hkv
    subst hkv2
    have h2 := hinv k hk
    simp at h2
    simpa using h2
  rw [h1, List.nil_append]
  simp [add_arg_parser_keys, run_type_iter_order, wanted_args, List.filter_cons]

/-- Concrete argument assignment with two run-type flags supplied. -/
def c10Supplied : String → Option (List String) := fun k =>
  if k = "pre_test" then some ["chg1"]
  else if k = "validate" then some ["chg2"] else none

/-- Counterexample to C10 as stated: with both `pre_test` and `validate`
supplied, the claimed order (the `wanted_args` list, where `pre_test` comes
after `validate`) predicts `pre_test`, but `get_run_type` iterates the
argument dictionary in argparse registration order, where `validate` is last,
and returns `validate`. -/
theorem c10_run_type_order_counterexample :
    get_run_type (parsed_args [] c10Supplied) = (some "validate", ["chg2"])
      ∧ (wanted_args.filter (fun k => (c10Supplied k).isSome)).getLast?
          = some "pre_test"
      ∧ some ("validate" : String) ≠ some "pre_test" := by
  refine ⟨by decide, by decide, by decide⟩

/-- C10 (amended): run-type selection never errors; among the supplied
run-type flags the one that is iterated last wins, where the iteration order
is the argparse registration order `print, vital_save, detail_save, compare,
pre_test, post_test, gen_val_file, validate` (not the `wanted_args` order);
the winner's path argument is returned, and with no run-type flag supplied
the result is `(none, [])`. -/
theorem c10_run_type_last_flag_wins_amended :
    ∀ (inv_keys : List String) (supplied : String → Option (List String)),
      (∀ k ∈ inv_keys, wanted_args.contains k = false) →
      get_run_type (parsed_args inv_keys supplied)
        = (run_type_iter_order.filter (fun k => (supplied k).isSome)).getLast?.elim
            (none, []) (fun k => (some k, (supplied k).getD [])) := by
  intro inv_keys supplied hinv
  unfold get_run_type
  dsimp only
  rw [parsed_args_filter inv_keys supplied hinv, get_run_type_foldl,
    List.filter_map, List.getLast?_map]
  simp only [Function.comp_def]
  cases hlast : (run_type_iter_order.filter (fun k => (supplied k).isSome)).getLast? <;>
    rfl

/-- Witness for the amended C10: with `pre_test` and `validate` both
supplied, the last flag in registration order (`validate`) wins. -/
theorem c10_run_type_last_flag_wins_amended_witness :
    get_run_type (parsed_args [] c10Supplied)
      = (run_type_iter_order.filter (fun k => (c10Supplied k).isSome)).getLast?.elim
          (none, []) (fun k => (some k, (c10Supplied k).getD [])) :=
  c10_run_type_last_flag_wins_amended [] c10Supplied (by simp)
